import Mathlib

/-!
# Verification of the Prisoner's Dilemma notebook

Shallow embedding of `src/PrisonersDilemma.ipynb` (the game loop, the
classic score matrix, the strategy library, the tournament runner and the
leaderboard aggregation loop), together with theorems settling the
specification's claims about them.
-/

/-! ## Data model (notebook type aliases) -/

/-- `Move = str` in the notebook: moves are the strings `"C"` and `"D"`. -/
abbrev Move := String

/-- `Score = int`. -/
abbrev Score := Int

/-- `Turn = tuple[Move, Score]`: one round's outcome for one player. -/
abbrev Turn := Move × Score

/-- `History = list[Turn]`, ordered from the start of the game. -/
abbrev History := List Turn

/-- `Strategy = Callable[[History, History], Move]`: opposing history first,
own history second. -/
abbrev Strategy := History → History → Move

/-- `ScoreFunc = Callable[[Move, Move], tuple[Score, Score]]` for score
functions that return on every move pair. -/
abbrev ScoreFunc := Move → Move → Score × Score

/-- `COOPERATE = "C"`. -/
def COOPERATE : Move := "C"

/-- `DEFECT = "D"`. -/
def DEFECT : Move := "D"

/-! ## The game loop (`simulate_game`) -/

/-- The loop state of `simulate_game`: the two histories and the two running
totals (`history1, history2 = [], []` and `total_score1, total_score2 = 0, 0`
initially). -/
structure GameState where
  history1 : History
  history2 : History
  total_score1 : Score
  total_score2 : Score
  deriving Repr, DecidableEq

/-- One iteration of the `for _ in range(num_turns)` body of `simulate_game`:
`move1 = strategy1(history2, history1)`, `move2 = strategy2(history1, history2)`,
`score1, score2 = update_scores(move1, move2)`, add the scores to the totals and
append `(move, score)` to each player's history. -/
def gameStep (strategy1 strategy2 : Strategy) (update_scores : ScoreFunc)
    (st : GameState) : GameState :=
  let move1 := strategy1 st.history2 st.history1
  let move2 := strategy2 st.history1 st.history2
  let s := update_scores move1 move2
  { history1 := st.history1 ++ [(move1, s.1)]
    history2 := st.history2 ++ [(move2, s.2)]
    total_score1 := st.total_score1 + s.1
    total_score2 := st.total_score2 + s.2 }

/-- The loop state of `simulate_game` after `n` completed turns. -/
def gameState (strategy1 strategy2 : Strategy) (update_scores : ScoreFunc) :
    Nat → GameState
  | 0 => ⟨[], [], 0, 0⟩
  | n + 1 => gameStep strategy1 strategy2 update_scores
      (gameState strategy1 strategy2 update_scores n)

/-- `simulate_game`: run `num_turns` turns and return
`(total_score1, total_score2)`. -/
def simulate_game (strategy1 strategy2 : Strategy) (update_scores : ScoreFunc)
    (num_turns : Nat) : Score × Score :=
  let st := gameState strategy1 strategy2 update_scores num_turns
  (st.total_score1, st.total_score2)

/-- The move `strategy1` returns on (1-indexed) turn `k + 1`: it is invoked on
the snapshot of the histories after `k` completed turns, opposing history
first. -/
def roundMove1 (strategy1 strategy2 : Strategy) (update_scores : ScoreFunc)
    (k : Nat) : Move :=
  let st := gameState strategy1 strategy2 update_scores k
  strategy1 st.history2 st.history1

/-- The move `strategy2` returns on (1-indexed) turn `k + 1`. -/
def roundMove2 (strategy1 strategy2 : Strategy) (update_scores : ScoreFunc)
    (k : Nat) : Move :=
  let st := gameState strategy1 strategy2 update_scores k
  strategy2 st.history1 st.history2

/-! ## The score matrix -/

/-- `ScoreMatrix = dict[tuple[Move, Move], tuple[Score, Score]]`, as the
association list of its items in insertion order. -/
abbrev ScoreMatrix := List ((Move × Move) × (Score × Score))

/-- Python `score_matrix[(move1, move2)]` as a partial lookup: `some` scores
when the key is present, `none` for the `KeyError` case. -/
def matrixLookup (score_matrix : ScoreMatrix) (move1 move2 : Move) :
    Option (Score × Score) :=
  (score_matrix.find? fun p => p.1 == (move1, move2)).map Prod.snd

/-- `classic_score_matrix`. -/
def classic_score_matrix : ScoreMatrix :=
  [((COOPERATE, COOPERATE), (3, 3)),
   ((COOPERATE, DEFECT), (0, 5)),
   ((DEFECT, COOPERATE), (5, 0)),
   ((DEFECT, DEFECT), (1, 1))]

/-! ## The game loop with a fallible score function

`create_score_func_from_matrix` returns a closure that indexes the dict and
raises `KeyError(key)` on a missing move pair; the exception propagates out of
`simulate_game`. `runGameE` is the same loop as `gameState` with that raising
behaviour made explicit: `Except.error` carries exactly what the `KeyError`
carries, the offending move pair. -/

def runGameE (strategy1 strategy2 : Strategy) (score_matrix : ScoreMatrix) :
    Nat → Except (Move × Move) GameState
  | 0 => .ok ⟨[], [], 0, 0⟩
  | n + 1 =>
    match runGameE strategy1 strategy2 score_matrix n with
    | .error e => .error e
    | .ok st =>
      let move1 := strategy1 st.history2 st.history1
      let move2 := strategy2 st.history1 st.history2
      match matrixLookup score_matrix move1 move2 with
      | none => .error (move1, move2)
      | some s =>
        .ok { history1 := st.history1 ++ [(move1, s.1)]
              history2 := st.history2 ++ [(move2, s.2)]
              total_score1 := st.total_score1 + s.1
              total_score2 := st.total_score2 + s.2 }

/-- `simulate_game` applied to `create_score_func_from_matrix(score_matrix)`:
either the pair of final totals, or the propagated `KeyError` payload. -/
def simulate_gameE (strategy1 strategy2 : Strategy) (score_matrix : ScoreMatrix)
    (num_turns : Nat) : Except (Move × Move) (Score × Score) :=
  (runGameE strategy1 strategy2 score_matrix num_turns).map fun st =>
    (st.total_score1, st.total_score2)

/-! ## The strategy library -/

/-- `optimist`: always cooperates. -/
def optimist (_opposing _own : History) : Move := COOPERATE

/-- `criminal`: always defects. -/
def criminal (_opposing _own : History) : Move := DEFECT

/-- `tit_for_tat`: cooperates when the opposing history is empty, otherwise
repeats the opposing strategy's previous move (`opposing[-1]`). -/
def tit_for_tat (opposing _own : History) : Move :=
  match opposing.getLast? with
  | none => COOPERATE
  | some t => t.1

/-! ## The tournament runner

The notebook builds
`results = {to_key(s1, s2): simulate_classic_game(s1, s2) for s1, s2 in combinations(strategies_to_compare)}`.
Strategies enter the table keyed by `__name__`; the embedding carries the name
alongside the function as a `(StrategyId, Strategy)` pair. The dict
comprehension is insertion with Python dict semantics: a repeated key keeps its
original position and its value is overwritten. -/

/-- `__name__` of a strategy, a string. -/
abbrev StrategyId := String

/-- One results-table entry: `(idA, idB) -> (scoreA, scoreB)`; the scores are
written at the type `Int` that `Score` abbreviates. -/
abbrev PairResult := (StrategyId × StrategyId) × (Int × Int)

/-- The results dict, as its items in insertion order. -/
abbrev ResultsTable := List PairResult

/-- Python dict insertion `d[k] = v`: overwrite in place when `k` is already a
key, append otherwise. -/
def dictInsert {κ ν : Type} [BEq κ] (d : List (κ × ν)) (k : κ) (v : ν) :
    List (κ × ν) :=
  if d.any fun p => p.1 == k then
    d.map fun p => if p.1 == k then (k, v) else p
  else
    d ++ [(k, v)]

/-- Python dict lookup `d[k]`, `none` for a missing key. -/
def dictLookup {κ ν : Type} [BEq κ] (d : List (κ × ν)) (k : κ) : Option ν :=
  (d.find? fun p => p.1 == k).map Prod.snd

/-- `combinations`: `for i in items: for j in items: yield (i, j)` — every
ordered pair, self-pairs included. -/
def combinations {α : Type} (items : List α) : List (α × α) :=
  items.flatMap fun i => items.map fun j => (i, j)

/-- `to_key(strategy1, strategy2) = (strategy1.__name__, strategy2.__name__)`. -/
def to_key (strategy1 strategy2 : StrategyId × Strategy) :
    StrategyId × StrategyId :=
  (strategy1.1, strategy2.1)

/-- The `results` dict comprehension, with the score function and turn count
(`update_classic_scores` and `NUM_TURNS = 200` in the notebook) as
parameters. -/
def run_tournament (strategies : List (StrategyId × Strategy))
    (update_scores : ScoreFunc) (num_turns : Nat) : ResultsTable :=
  (combinations strategies).foldl
    (fun d p =>
      dictInsert d (to_key p.1 p.2) (simulate_game p.1.2 p.2.2 update_scores num_turns))
    []

/-! ## The leaderboard aggregation loop

`totals`, `best`, `wins` and `ties` are `defaultdict(int)`: reading a missing
key yields `0`. They are embedded as total functions `StrategyId → Int` with
default `0`. -/

/-- The four `defaultdict(int)` accumulators of the aggregation loop. -/
structure Leaderboard where
  totals : StrategyId → Int
  best : StrategyId → Int
  wins : StrategyId → Int
  ties : StrategyId → Int

/-- `m[k] += v` on a `defaultdict(int)`. -/
def bump (m : StrategyId → Int) (k : StrategyId) (v : Int) : StrategyId → Int :=
  fun s => if s = k then m k + v else m s

/-- `m[k] = max(m[k], v)` on a `defaultdict(int)`. -/
def setMax (m : StrategyId → Int) (k : StrategyId) (v : Int) : StrategyId → Int :=
  fun s => if s = k then max (m k) v else m s

/-- One iteration of
`for (strategy1, strategy2), (score1, score2) in results.items():` —
accumulate both totals, both bests, and exactly one of
win-for-1 / tie-for-both / win-for-2. -/
def aggregateStep (a : Leaderboard) (e : PairResult) : Leaderboard :=
  let strategy1 := e.1.1
  let strategy2 := e.1.2
  let score1 := e.2.1
  let score2 := e.2.2
  { totals := bump (bump a.totals strategy1 score1) strategy2 score2
    best := setMax (setMax a.best strategy1 score1) strategy2 score2
    wins :=
      if score1 > score2 then bump a.wins strategy1 1
      else if score1 = score2 then a.wins
      else bump a.wins strategy2 1
    ties :=
      if score1 > score2 then a.ties
      else if score1 = score2 then bump (bump a.ties strategy1 1) strategy2 1
      else a.ties }

/-- The empty accumulators: every `defaultdict(int)` starts with every key
at `0`. -/
def emptyLeaderboard : Leaderboard :=
  ⟨fun _ => 0, fun _ => 0, fun _ => 0, fun _ => 0⟩

/-- The whole aggregation loop over `results.items()`. -/
def aggregate (results : ResultsTable) : Leaderboard :=
  results.foldl aggregateStep emptyLeaderboard

/-! ## Game-loop lemmas -/

theorem gameState_succ (strategy1 strategy2 : Strategy) (f : ScoreFunc) (n : Nat) :
    gameState strategy1 strategy2 f (n + 1)
      = gameStep strategy1 strategy2 f (gameState strategy1 strategy2 f n) := rfl

theorem gameState_history1_succ (strategy1 strategy2 : Strategy) (f : ScoreFunc)
    (n : Nat) :
    (gameState strategy1 strategy2 f (n + 1)).history1
      = (gameState strategy1 strategy2 f n).history1
          ++ [(roundMove1 strategy1 strategy2 f n,
               (f (roundMove1 strategy1 strategy2 f n)
                  (roundMove2 strategy1 strategy2 f n)).1)] := rfl

theorem gameState_history2_succ (strategy1 strategy2 : Strategy) (f : ScoreFunc)
    (n : Nat) :
    (gameState strategy1 strategy2 f (n + 1)).history2
      = (gameState strategy1 strategy2 f n).history2
          ++ [(roundMove2 strategy1 strategy2 f n,
               (f (roundMove1 strategy1 strategy2 f n)
                  (roundMove2 strategy1 strategy2 f n)).2)] := rfl

theorem gameState_total1_succ (strategy1 strategy2 : Strategy) (f : ScoreFunc)
    (n : Nat) :
    (gameState strategy1 strategy2 f (n + 1)).total_score1
      = (gameState strategy1 strategy2 f n).total_score1
          + (f (roundMove1 strategy1 strategy2 f n)
               (roundMove2 strategy1 strategy2 f n)).1 := rfl

theorem gameState_total2_succ (strategy1 strategy2 : Strategy) (f : ScoreFunc)
    (n : Nat) :
    (gameState strategy1 strategy2 f (n + 1)).total_score2
      = (gameState strategy1 strategy2 f n).total_score2
          + (f (roundMove1 strategy1 strategy2 f n)
               (roundMove2 strategy1 strategy2 f n)).2 := rfl

theorem gameState_history1_eq (strategy1 strategy2 : Strategy) (f : ScoreFunc) :
    ∀ n, (gameState strategy1 strategy2 f n).history1
      = (List.range n).map fun k =>
          (roundMove1 strategy1 strategy2 f k,
           (f (roundMove1 strategy1 strategy2 f k)
              (roundMove2 strategy1 strategy2 f k)).1)
  | 0 => rfl
  | n + 1 => by
    rw [gameState_history1_succ, gameState_history1_eq strategy1 strategy2 f n,
      List.range_succ, List.map_append, List.map_cons, List.map_nil]

theorem gameState_history2_eq (strategy1 strategy2 : Strategy) (f : ScoreFunc) :
    ∀ n, (gameState strategy1 strategy2 f n).history2
      = (List.range n).map fun k =>
          (roundMove2 strategy1 strategy2 f k,
           (f (roundMove1 strategy1 strategy2 f k)
              (roundMove2 strategy1 strategy2 f k)).2)
  | 0 => rfl
  | n + 1 => by
    rw [gameState_history2_succ, gameState_history2_eq strategy1 strategy2 f n,
      List.range_succ, List.map_append, List.map_cons, List.map_nil]

theorem gameState_history1_length (strategy1 strategy2 : Strategy) (f : ScoreFunc)
    (n : Nat) : (gameState strategy1 strategy2 f n).history1.length = n := by
  rw [gameState_history1_eq, List.length_map, List.length_range]

theorem gameState_history2_length (strategy1 strategy2 : Strategy) (f : ScoreFunc)
    (n : Nat) : (gameState strategy1 strategy2 f n).history2.length = n := by
  rw [gameState_history2_eq, List.length_map, List.length_range]

theorem gameState_total1_eq (strategy1 strategy2 : Strategy) (f : ScoreFunc) :
    ∀ n, (gameState strategy1 strategy2 f n).total_score1
      = ((List.range n).map fun k =>
          (f (roundMove1 strategy1 strategy2 f k)
             (roundMove2 strategy1 strategy2 f k)).1).sum
  | 0 => rfl
  | n + 1 => by
    rw [gameState_total1_succ, gameState_total1_eq strategy1 strategy2 f n,
      List.range_succ, List.map_append, List.map_cons, List.map_nil,
      List.sum_append, List.sum_cons, List.sum_nil, add_zero]

theorem gameState_total2_eq (strategy1 strategy2 : Strategy) (f : ScoreFunc) :
    ∀ n, (gameState strategy1 strategy2 f n).total_score2
      = ((List.range n).map fun k =>
          (f (roundMove1 strategy1 strategy2 f k)
             (roundMove2 strategy1 strategy2 f k)).2).sum
  | 0 => rfl
  | n + 1 => by
    rw [gameState_total2_succ, gameState_total2_eq strategy1 strategy2 f n,
      List.range_succ, List.map_append, List.map_cons, List.map_nil,
      List.sum_append, List.sum_cons, List.sum_nil, add_zero]

/-- **C1.** `simulate_game` executes exactly `num_turns` rounds (each history
holds one record per round) and returns the pair of final totals, each total
being the sum over rounds of the score `update_scores` assigned to that
round's move pair in the order `(move1, move2) → (score1, score2)`;
`num_turns = 0` returns `(0, 0)` for every pair of strategies, hence without
consulting either strategy. -/
theorem simulate_game_runs_num_turns (strategy1 strategy2 : Strategy)
    (update_scores : ScoreFunc) (num_turns : Nat) :
    simulate_game strategy1 strategy2 update_scores num_turns
      = (((List.range num_turns).map fun k =>
            (update_scores (roundMove1 strategy1 strategy2 update_scores k)
               (roundMove2 strategy1 strategy2 update_scores k)).1).sum,
         ((List.range num_turns).map fun k =>
            (update_scores (roundMove1 strategy1 strategy2 update_scores k)
               (roundMove2 strategy1 strategy2 update_scores k)).2).sum)
    ∧ (gameState strategy1 strategy2 update_scores num_turns).history1.length
        = num_turns
    ∧ (gameState strategy1 strategy2 update_scores num_turns).history2.length
        = num_turns
    ∧ simulate_game strategy1 strategy2 update_scores 0 = (0, 0) := by
  refine ⟨?_, gameState_history1_length _ _ _ _, gameState_history2_length _ _ _ _, rfl⟩
  show ((gameState strategy1 strategy2 update_scores num_turns).total_score1,
        (gameState strategy1 strategy2 update_scores num_turns).total_score2) = _
  rw [gameState_total1_eq, gameState_total2_eq]

theorem gameState_history1_take (strategy1 strategy2 : Strategy) (f : ScoreFunc)
    (n : Nat) : ∀ m, n ≤ m →
    (gameState strategy1 strategy2 f m).history1.take n
      = (gameState strategy1 strategy2 f n).history1 := by
  intro m
  induction m with
  | zero => intro h; rw [Nat.le_zero.mp h]; rfl
  | succ m ih =>
    intro h
    rcases Nat.lt_or_ge n (m + 1) with h' | h'
    · rw [gameState_history1_succ, List.take_append_of_le_length, ih (Nat.lt_succ_iff.mp h')]
      rw [gameState_history1_length]
      exact Nat.lt_succ_iff.mp h'
    · have : n = m + 1 := Nat.le_antisymm h h'
      subst this
      exact List.take_of_length_le (le_of_eq (gameState_history1_length _ _ _ _))

theorem gameState_history2_take (strategy1 strategy2 : Strategy) (f : ScoreFunc)
    (n : Nat) : ∀ m, n ≤ m →
    (gameState strategy1 strategy2 f m).history2.take n
      = (gameState strategy1 strategy2 f n).history2 := by
  intro m
  induction m with
  | zero => intro h; rw [Nat.le_zero.mp h]; rfl
  | succ m ih =>
    intro h
    rcases Nat.lt_or_ge n (m + 1) with h' | h'
    · rw [gameState_history2_succ, List.take_append_of_le_length, ih (Nat.lt_succ_iff.mp h')]
      rw [gameState_history2_length]
      exact Nat.lt_succ_iff.mp h'
    · have : n = m + 1 := Nat.le_antisymm h h'
      subst this
      exact List.take_of_length_le (le_of_eq (gameState_history2_length _ _ _ _))

/-- **C4.** Within one game, turn `n + 1`'s two strategy invocations both
receive the same snapshot — the histories produced by turns `1..n`, fully
scored — before any score of turn `n + 1` is computed or appended: the
snapshot has exactly one record per completed turn, turn `n + 1` appends
exactly one fully-scored record to each history, and the snapshot is exactly
the length-`n` prefix of the history at every later point of the game. -/
theorem turn_snapshot_invariant (strategy1 strategy2 : Strategy)
    (update_scores : ScoreFunc) (n : Nat) :
    (gameState strategy1 strategy2 update_scores n).history1.length = n
    ∧ (gameState strategy1 strategy2 update_scores n).history2.length = n
    ∧ roundMove1 strategy1 strategy2 update_scores n
        = strategy1 (gameState strategy1 strategy2 update_scores n).history2
            (gameState strategy1 strategy2 update_scores n).history1
    ∧ roundMove2 strategy1 strategy2 update_scores n
        = strategy2 (gameState strategy1 strategy2 update_scores n).history1
            (gameState strategy1 strategy2 update_scores n).history2
    ∧ (gameState strategy1 strategy2 update_scores (n + 1)).history1
        = (gameState strategy1 strategy2 update_scores n).history1
            ++ [(roundMove1 strategy1 strategy2 update_scores n,
                 (update_scores (roundMove1 strategy1 strategy2 update_scores n)
                    (roundMove2 strategy1 strategy2 update_scores n)).1)]
    ∧ (gameState strategy1 strategy2 update_scores (n + 1)).history2
        = (gameState strategy1 strategy2 update_scores n).history2
            ++ [(roundMove2 strategy1 strategy2 update_scores n,
                 (update_scores (roundMove1 strategy1 strategy2 update_scores n)
                    (roundMove2 strategy1 strategy2 update_scores n)).2)]
    ∧ (∀ m, n ≤ m →
        (gameState strategy1 strategy2 update_scores m).history1.take n
            = (gameState strategy1 strategy2 update_scores n).history1
        ∧ (gameState strategy1 strategy2 update_scores m).history2.take n
            = (gameState strategy1 strategy2 update_scores n).history2) :=
  ⟨gameState_history1_length _ _ _ _, gameState_history2_length _ _ _ _,
   rfl, rfl,
   gameState_history1_succ _ _ _ _, gameState_history2_succ _ _ _ _,
   fun m hm => ⟨gameState_history1_take _ _ _ _ m hm,
                gameState_history2_take _ _ _ _ m hm⟩⟩

/-- Witness for `turn_snapshot_invariant`: instantiated for
`criminal` vs `tit_for_tat` under the classic scores at `n = 1`, `m = 2`,
the inner hypothesis `1 ≤ 2` discharged concretely. -/
theorem turn_snapshot_invariant_witness :
    (gameState criminal tit_for_tat
        (fun a b => (matrixLookup classic_score_matrix a b).getD (0, 0)) 2).history1.take 1
      = (gameState criminal tit_for_tat
          (fun a b => (matrixLookup classic_score_matrix a b).getD (0, 0)) 1).history1 :=
  ((turn_snapshot_invariant criminal tit_for_tat
      (fun a b => (matrixLookup classic_score_matrix a b).getD (0, 0)) 1).2.2.2.2.2.2
    2 (by decide)).1

/-- **C10.** The implemented visibility policy is the separated-histories
variant: after any number of turns, player 1's history is exactly one record
per turn holding player 1's own move and own score (likewise player 2), where
each turn's moves are obtained by invoking `strategy1` with
`(history2, history1)` and `strategy2` with `(history1, history2)` — the
opponent's history first, the player's own history second. -/
theorem separated_histories_policy (strategy1 strategy2 : Strategy)
    (update_scores : ScoreFunc) (n : Nat) :
    (gameState strategy1 strategy2 update_scores n).history1
      = ((List.range n).map fun k =>
          (roundMove1 strategy1 strategy2 update_scores k,
           (update_scores (roundMove1 strategy1 strategy2 update_scores k)
              (roundMove2 strategy1 strategy2 update_scores k)).1))
    ∧ (gameState strategy1 strategy2 update_scores n).history2
      = ((List.range n).map fun k =>
          (roundMove2 strategy1 strategy2 update_scores k,
           (update_scores (roundMove1 strategy1 strategy2 update_scores k)
              (roundMove2 strategy1 strategy2 update_scores k)).2))
    ∧ roundMove1 strategy1 strategy2 update_scores n
      = strategy1 (gameState strategy1 strategy2 update_scores n).history2
          (gameState strategy1 strategy2 update_scores n).history1
    ∧ roundMove2 strategy1 strategy2 update_scores n
      = strategy2 (gameState strategy1 strategy2 update_scores n).history1
          (gameState strategy1 strategy2 update_scores n).history2 :=
  ⟨gameState_history1_eq _ _ _ _, gameState_history2_eq _ _ _ _, rfl, rfl⟩

set_option maxRecDepth 100000 in
/-- **C3.** The game loop run with `criminal` (always defect) as player 1,
`tit_for_tat` as player 2, the classic score matrix and 100 turns succeeds and
returns exactly `(104, 99)`. -/
theorem criminal_vs_tit_for_tat_100 :
    simulate_gameE criminal tit_for_tat classic_score_matrix 100
      = Except.ok (104, 99) := by rfl


/-! ## Aggregation-loop lemmas -/

theorem bump_apply (m : StrategyId → Int) (k : StrategyId) (v : Int)
    (s : StrategyId) : bump m k v s = if s = k then m k + v else m s := rfl

theorem setMax_apply (m : StrategyId → Int) (k : StrategyId) (v : Int)
    (s : StrategyId) : setMax m k v s = if s = k then max (m k) v else m s := rfl

/-- The scores an entry contributes under identity `s`: its first score when
`s` keys the entry's first position, its second score when `s` keys the
second — both for a self-pairing. -/
def entryScores (s : StrategyId) (e : PairResult) : List Int :=
  (if s = e.1.1 then [e.2.1] else []) ++ (if s = e.1.2 then [e.2.2] else [])

/-- All single-game scores attained by identity `s` across its appearances in
a results table, as either player, in table order. -/
def appearScores (s : StrategyId) (results : ResultsTable) : List Int :=
  results.flatMap (entryScores s)

theorem aggregateStep_totals (a : Leaderboard) (e : PairResult) (s : StrategyId) :
    (aggregateStep a e).totals s
      = a.totals s + ((if s = e.1.1 then e.2.1 else 0)
          + (if s = e.1.2 then e.2.2 else 0)) := by
  obtain ⟨⟨i1, i2⟩, v1, v2⟩ := e
  simp only [aggregateStep, bump_apply]
  by_cases h1 : s = i1 <;> by_cases h2 : s = i2
  · subst h1; subst h2; simp [add_assoc]
  · subst h1; simp [h2]
  · subst h2; simp [h1]
  · simp [h1, h2]

theorem aggregateStep_best (a : Leaderboard) (e : PairResult) (s : StrategyId) :
    (aggregateStep a e).best s = (entryScores s e).foldl max (a.best s) := by
  obtain ⟨⟨i1, i2⟩, v1, v2⟩ := e
  simp only [aggregateStep, setMax_apply, entryScores]
  by_cases h1 : s = i1 <;> by_cases h2 : s = i2
  · subst h1; subst h2; simp [max_assoc]
  · subst h1; simp [h2]
  · subst h2; simp [h1]
  · simp [h1, h2]

theorem aggregateStep_wins (a : Leaderboard) (e : PairResult) (s : StrategyId) :
    (aggregateStep a e).wins s
      = a.wins s + ((if s = e.1.1 ∧ e.2.2 < e.2.1 then (1 : Int) else 0)
          + (if s = e.1.2 ∧ e.2.1 < e.2.2 then (1 : Int) else 0)) := by
  obtain ⟨⟨i1, i2⟩, v1, v2⟩ := e
  simp only [aggregateStep, gt_iff_lt]
  rw [apply_ite (fun g : StrategyId → Int => g s),
    apply_ite (fun g : StrategyId → Int => g s)]
  simp only [bump_apply]
  by_cases h1 : s = i1 <;> by_cases h2 : s = i2
  · subst h1; subst h2; simp; try (split_ifs <;> omega)
  · subst h1; simp [h2]; try (split_ifs <;> omega)
  · subst h2; simp [h1]; try (split_ifs <;> omega)
  · simp [h1, h2]

theorem aggregateStep_ties (a : Leaderboard) (e : PairResult) (s : StrategyId) :
    (aggregateStep a e).ties s
      = a.ties s + (if e.2.1 = e.2.2 then
          (if s = e.1.1 then (1 : Int) else 0)
            + (if s = e.1.2 then (1 : Int) else 0) else 0) := by
  obtain ⟨⟨i1, i2⟩, v1, v2⟩ := e
  simp only [aggregateStep, gt_iff_lt]
  rw [apply_ite (fun g : StrategyId → Int => g s),
    apply_ite (fun g : StrategyId → Int => g s)]
  simp only [bump_apply]
  by_cases h1 : s = i1 <;> by_cases h2 : s = i2
  · subst h1; subst h2; simp; try (split_ifs <;> omega)
  · subst h1; simp [h2]; try (split_ifs <;> omega)
  · subst h2; simp [h1]; try (split_ifs <;> omega)
  · simp [h1, h2]

theorem foldl_aggregateStep_totals (results : ResultsTable) :
    ∀ (a : Leaderboard) (s : StrategyId),
    (results.foldl aggregateStep a).totals s
      = a.totals s + (results.map fun e => (if s = e.1.1 then e.2.1 else 0)
          + (if s = e.1.2 then e.2.2 else 0)).sum := by
  induction results with
  | nil => intro a s; simp
  | cons e results ih =>
    intro a s
    rw [List.foldl_cons, ih, aggregateStep_totals, List.map_cons, List.sum_cons,
      add_assoc]

theorem foldl_aggregateStep_best (results : ResultsTable) :
    ∀ (a : Leaderboard) (s : StrategyId),
    (results.foldl aggregateStep a).best s
      = (appearScores s results).foldl max (a.best s) := by
  induction results with
  | nil => intro a s; rfl
  | cons e results ih =>
    intro a s
    rw [List.foldl_cons, ih, aggregateStep_best]
    show _ = (entryScores s e ++ appearScores s results).foldl max (a.best s)
    rw [List.foldl_append]

theorem foldl_aggregateStep_wins (results : ResultsTable) :
    ∀ (a : Leaderboard) (s : StrategyId),
    (results.foldl aggregateStep a).wins s
      = a.wins s + (results.map fun e =>
          (if s = e.1.1 ∧ e.2.2 < e.2.1 then (1 : Int) else 0)
            + (if s = e.1.2 ∧ e.2.1 < e.2.2 then (1 : Int) else 0)).sum := by
  induction results with
  | nil => intro a s; simp
  | cons e results ih =>
    intro a s
    rw [List.foldl_cons, ih, aggregateStep_wins, List.map_cons, List.sum_cons,
      add_assoc]

theorem foldl_aggregateStep_ties (results : ResultsTable) :
    ∀ (a : Leaderboard) (s : StrategyId),
    (results.foldl aggregateStep a).ties s
      = a.ties s + (results.map fun e => if e.2.1 = e.2.2 then
          (if s = e.1.1 then (1 : Int) else 0)
            + (if s = e.1.2 then (1 : Int) else 0) else 0).sum := by
  induction results with
  | nil => intro a s; simp
  | cons e results ih =>
    intro a s
    rw [List.foldl_cons, ih, aggregateStep_ties, List.map_cons, List.sum_cons,
      add_assoc]

/-- **C2.** The aggregation loop produces exactly the four mappings of the
per-entry reduction: for every identity `s`, `totals[s]` is the sum of
`scoreA` over entries keyed `(s, _)` plus `scoreB` over entries keyed
`(_, s)`; `best[s]` is the running `max` (started from the `defaultdict`
default `0`) over exactly those same appearance scores; and each entry is
classified exactly once — a win for `idA` when `scoreA > scoreB`, one tie for
each of `idA` and `idB` when `scoreA == scoreB`, otherwise a win for `idB`.
A self-pairing entry (`idA == idB == s`) contributes to the `totals` sum, the
`best` scores, and the double tie under the same identity twice, as the
formulas' two addends coincide on it. -/
theorem aggregate_reduction (results : ResultsTable) (s : StrategyId) :
    (aggregate results).totals s
      = (results.map fun e => (if s = e.1.1 then e.2.1 else 0)
          + (if s = e.1.2 then e.2.2 else 0)).sum
    ∧ (aggregate results).best s = (appearScores s results).foldl max 0
    ∧ (aggregate results).wins s
      = (results.map fun e =>
          (if s = e.1.1 ∧ e.2.2 < e.2.1 then (1 : Int) else 0)
            + (if s = e.1.2 ∧ e.2.1 < e.2.2 then (1 : Int) else 0)).sum
    ∧ (aggregate results).ties s
      = (results.map fun e => if e.2.1 = e.2.2 then
          (if s = e.1.1 then (1 : Int) else 0)
            + (if s = e.1.2 then (1 : Int) else 0) else 0).sum := by
  refine ⟨?_, ?_, ?_, ?_⟩
  · rw [aggregate, foldl_aggregateStep_totals]
    show (0 : Int) + _ = _
    rw [zero_add]
  · rw [aggregate, foldl_aggregateStep_best]
    rfl
  · rw [aggregate, foldl_aggregateStep_wins]
    show (0 : Int) + _ = _
    rw [zero_add]
  · rw [aggregate, foldl_aggregateStep_ties]
    show (0 : Int) + _ = _
    rw [zero_add]

theorem foldl_max_of_le (l : List Int) : ∀ (b : Int), (∀ x ∈ l, x ≤ b) →
    l.foldl max b = b := by
  induction l with
  | nil => intro b _; rfl
  | cons e l ih =>
    intro b hb
    rw [List.foldl_cons, max_eq_left (hb e (List.mem_cons_self e l))]
    exact ih b fun x hx => hb x (List.mem_cons_of_mem e hx)

theorem foldl_max_of_mem (l : List Int) : ∀ (b m : Int), m ∈ l →
    (∀ x ∈ l, x ≤ m) → l.foldl max b = max b m := by
  induction l with
  | nil => intro b m hm; exact absurd hm (List.not_mem_nil m)
  | cons e l ih =>
    intro b m hm hmax
    rw [List.foldl_cons]
    rcases List.mem_cons.mp hm with he | hm'
    · subst he
      rcases Decidable.em (m ∈ l) with h | h
      · rw [ih (max b m) m h fun x hx => hmax x (List.mem_cons_of_mem m hx),
          max_assoc, max_self]
      · exact foldl_max_of_le l (max b m) fun x hx =>
          le_trans (hmax x (List.mem_cons_of_mem m hx)) (le_max_right b m)
    · have he : e ≤ m := hmax e (List.mem_cons_self e l)
      rw [ih (max b e) m hm' fun x hx => hmax x (List.mem_cons_of_mem e hx),
        max_assoc, max_eq_right he]

/-- The **C6 counterexample**: on the one-entry results table
`{("A", "B"): (-1, -2)}` the aggregator's `best["A"]` is `0` — the
`defaultdict(int)` supplies an initial `0` that `max` never goes below — while
the maximum single-game score attained by `"A"` (its only appearance score) is
`-1 ≠ 0`. -/
theorem best_of_negative_scores_counterexample :
    (aggregate [(("A", "B"), (-1, -2))]).best "A" = 0
    ∧ appearScores "A" [(("A", "B"), (-1, -2))] = [-1]
    ∧ ((0 : Int) ≠ -1) := by
  refine ⟨?_, by decide, by decide⟩
  show (aggregateStep emptyLeaderboard (("A", "B"), (-1, -2))).best "A" = 0
  decide

/-- **C6 (amended).** For every results table and every identity appearing in
it with maximum single-game score `m` across its appearances, the aggregator's
`best` equals `max m 0` — the maximum is floored at the `defaultdict(int)`
default `0`; in particular `best` equals the true maximum `m` exactly when
`m` is non-negative. -/
theorem best_is_floored_max_appearance (results : ResultsTable)
    (s : StrategyId) (m : Int) (hmem : m ∈ appearScores s results)
    (hmax : ∀ x ∈ appearScores s results, x ≤ m) :
    (aggregate results).best s = max m 0
    ∧ (0 ≤ m → (aggregate results).best s = m) := by
  have h : (aggregate results).best s = max 0 m := by
    rw [aggregate, foldl_aggregateStep_best]
    exact foldl_max_of_mem _ _ m hmem hmax
  constructor
  · rw [h, max_comm]
  · intro h0
    rw [h, max_eq_right h0]

/-- Witness for `best_is_floored_max_appearance` at the concrete table
`{("A", "B"): (3, 1)}` with `s = "A"`, `m = 3`. -/
theorem best_is_floored_max_appearance_witness :
    (aggregate [(("A", "B"), (3, 1))]).best "A" = max 3 0
    ∧ (0 ≤ (3 : Int) → (aggregate [(("A", "B"), (3, 1))]).best "A" = 3) :=
  best_is_floored_max_appearance [(("A", "B"), (3, 1))] "A" 3
    (by decide) (by decide)

theorem self_game_state_eq (s : Strategy) (f : ScoreFunc)
    (hf : ∀ m, (f m m).1 = (f m m).2) :
    ∀ n, (gameState s s f n).history1 = (gameState s s f n).history2
      ∧ (gameState s s f n).total_score1 = (gameState s s f n).total_score2 := by
  intro n
  induction n with
  | zero => exact ⟨rfl, rfl⟩
  | succ n ih =>
    obtain ⟨hh, ht⟩ := ih
    rw [gameState_succ]
    unfold gameStep
    refine ⟨?_, ?_⟩ <;> simp only [hh, ht] <;>
      rw [show (f (s (gameState s s f n).history2 (gameState s s f n).history2)
          (s (gameState s s f n).history2 (gameState s s f n).history2)).1
        = (f (s (gameState s s f n).history2 (gameState s s f n).history2)
          (s (gameState s s f n).history2 (gameState s s f n).history2)).2
        from hf _]

/-- **C7.** A self-pairing entry of a results table — a strategy `s` playing
itself under a score function that scores equal moves symmetrically, as the
classic matrix does — has equal scores, and the aggregation loop classifies it
as a tie: `ties[i]` is incremented twice, the `wins` mapping is untouched, and
the entry contributes to `totals[i]` and to `best[i]` twice under the same
identity `i`. -/
theorem self_pairing_is_tie (s : Strategy) (f : ScoreFunc) (n : Nat)
    (i : StrategyId) (a : Leaderboard) (hf : ∀ m, (f m m).1 = (f m m).2) :
    (simulate_game s s f n).1 = (simulate_game s s f n).2
    ∧ (aggregateStep a ((i, i), simulate_game s s f n)).ties i = a.ties i + 2
    ∧ (aggregateStep a ((i, i), simulate_game s s f n)).wins = a.wins
    ∧ (aggregateStep a ((i, i), simulate_game s s f n)).totals i
        = a.totals i + (simulate_game s s f n).1 + (simulate_game s s f n).2
    ∧ (aggregateStep a ((i, i), simulate_game s s f n)).best i
        = max (max (a.best i) (simulate_game s s f n).1)
            (simulate_game s s f n).2 := by
  have hr : (simulate_game s s f n).1 = (simulate_game s s f n).2 :=
    (self_game_state_eq s f hf n).2
  refine ⟨hr, ?_, ?_, ?_, ?_⟩
  · rw [aggregateStep_ties]
    simp [hr]
  · simp only [aggregateStep]
    rw [if_neg (by rw [hr]; exact lt_irrefl _), if_pos hr]
  · rw [aggregateStep_totals]
    simp [add_assoc]
  · rw [aggregateStep_best]
    simp [entryScores, max_assoc]

/-- Witness for `self_pairing_is_tie`: `optimist` against itself for one turn
under the constant score function `(3, 3)`, identity `"optimist"`, starting
from the empty accumulators. -/
theorem self_pairing_is_tie_witness :
    (simulate_game optimist optimist (fun _ _ => ((3 : Int), (3 : Int))) 1).1
      = (simulate_game optimist optimist (fun _ _ => ((3 : Int), (3 : Int))) 1).2
    ∧ (aggregateStep emptyLeaderboard (("optimist", "optimist"),
        simulate_game optimist optimist (fun _ _ => ((3 : Int), (3 : Int))) 1)).ties
          "optimist" = emptyLeaderboard.ties "optimist" + 2
    ∧ (aggregateStep emptyLeaderboard (("optimist", "optimist"),
        simulate_game optimist optimist (fun _ _ => ((3 : Int), (3 : Int))) 1)).wins
          = emptyLeaderboard.wins
    ∧ (aggregateStep emptyLeaderboard (("optimist", "optimist"),
        simulate_game optimist optimist (fun _ _ => ((3 : Int), (3 : Int))) 1)).totals
          "optimist" = emptyLeaderboard.totals "optimist"
            + (simulate_game optimist optimist (fun _ _ => ((3 : Int), (3 : Int))) 1).1
            + (simulate_game optimist optimist (fun _ _ => ((3 : Int), (3 : Int))) 1).2
    ∧ (aggregateStep emptyLeaderboard (("optimist", "optimist"),
        simulate_game optimist optimist (fun _ _ => ((3 : Int), (3 : Int))) 1)).best
          "optimist"
        = max (max (emptyLeaderboard.best "optimist")
            (simulate_game optimist optimist (fun _ _ => ((3 : Int), (3 : Int))) 1).1)
            (simulate_game optimist optimist (fun _ _ => ((3 : Int), (3 : Int))) 1).2 :=
  self_pairing_is_tie optimist (fun _ _ => ((3 : Int), (3 : Int))) 1 "optimist"
    emptyLeaderboard (fun _ => rfl)

/-! ## Abort behaviour of the game loop -/

theorem runGameE_error_mono (strategy1 strategy2 : Strategy)
    (score_matrix : ScoreMatrix) (n : Nat) (e : Move × Move)
    (h : runGameE strategy1 strategy2 score_matrix n = .error e) :
    ∀ k, runGameE strategy1 strategy2 score_matrix (n + k) = .error e := by
  intro k
  induction k with
  | zero => exact h
  | succ k ih =>
    show runGameE strategy1 strategy2 score_matrix ((n + k) + 1) = .error e
    unfold runGameE
    rw [ih]

/-- **C8 (amended).** If on some turn the score function fails because the
matrix lacks an entry for that turn's move pair, the game loop aborts
immediately — the run returns no totals, partial or otherwise — and propagates
the lookup failure (`KeyError`) carrying exactly the offending move pair; the
propagated failure does not carry the turn index. -/
theorem abort_propagates_offending_pair (strategy1 strategy2 : Strategy)
    (score_matrix : ScoreMatrix) (k n : Nat) (st : GameState)
    (hrun : runGameE strategy1 strategy2 score_matrix k = .ok st)
    (hfail : matrixLookup score_matrix (strategy1 st.history2 st.history1)
        (strategy2 st.history1 st.history2) = none)
    (hkn : k < n) :
    simulate_gameE strategy1 strategy2 score_matrix n
      = .error (strategy1 st.history2 st.history1,
                strategy2 st.history1 st.history2) := by
  have hstep : runGameE strategy1 strategy2 score_matrix (k + 1)
      = .error (strategy1 st.history2 st.history1,
                strategy2 st.history1 st.history2) := by
    unfold runGameE
    rw [hrun]
    simp only [hfail]
  have hn : n = (k + 1) + (n - (k + 1)) := by omega
  rw [simulate_gameE, hn,
    runGameE_error_mono strategy1 strategy2 score_matrix (k + 1) _ hstep
      (n - (k + 1))]
  rfl

/-- A deliberately incomplete score matrix covering only `(C, C)`, used to
exercise the `KeyError` path. -/
def cc_only_matrix : ScoreMatrix := [((COOPERATE, COOPERATE), (3, 3))]

/-- A user-supplied strategy that cooperates on turn one (empty own history)
and defects afterwards, used to trigger a lookup failure on turn two. -/
def late_defector (_opposing own : History) : Move :=
  if own.isEmpty then COOPERATE else DEFECT

/-- Witness for `abort_propagates_offending_pair`: `criminal` against itself
over `cc_only_matrix` aborts a 3-turn game with the `KeyError` payload
`(D, D)`; the hypotheses are discharged at turn `k = 0` from the initial
state. -/
theorem abort_propagates_offending_pair_witness :
    simulate_gameE criminal criminal cc_only_matrix 3
      = .error (DEFECT, DEFECT) :=
  abort_propagates_offending_pair criminal criminal cc_only_matrix 0 3
    ⟨[], [], 0, 0⟩ rfl rfl (by decide)

/-- The **C8 counterexample**: the propagated failure does not identify the
turn index. `criminal` self-play over `cc_only_matrix` fails on turn 1, while
`late_defector` self-play fails on turn 2 (its turn 1 resolves fine), yet both
runs propagate the identical failure value `(D, D)` — the `KeyError` payload
is only the offending move pair, so no turn index can be recovered from it. -/
theorem abort_lacks_turn_index_counterexample :
    simulate_gameE criminal criminal cc_only_matrix 5 = .error (DEFECT, DEFECT)
    ∧ simulate_gameE late_defector late_defector cc_only_matrix 5
        = .error (DEFECT, DEFECT)
    ∧ runGameE criminal criminal cc_only_matrix 1 = .error (DEFECT, DEFECT)
    ∧ runGameE late_defector late_defector cc_only_matrix 1
        = .ok ⟨[(COOPERATE, 3)], [(COOPERATE, 3)], 3, 3⟩
    ∧ runGameE late_defector late_defector cc_only_matrix 2
        = .error (DEFECT, DEFECT) := by
  refine ⟨rfl, rfl, rfl, rfl, rfl⟩

/-! ## Tournament-runner lemmas -/

theorem combinations_eq_product {α : Type} (l : List α) :
    combinations l = l ×ˢ l := rfl

theorem combinations_map {α β : Type} (g : α → β) (l : List α) :
    combinations (l.map g) = (combinations l).map fun p => (g p.1, g p.2) := by
  simp only [combinations, List.flatMap_map, List.map_flatMap, List.map_map]
  rfl

theorem combinations_length {α : Type} (l : List α) :
    (combinations l).length = l.length * l.length := by
  rw [combinations_eq_product, List.length_product]

theorem mem_combinations {α : Type} {a b : α} {l : List α}
    (ha : a ∈ l) (hb : b ∈ l) : (a, b) ∈ combinations l := by
  rw [combinations_eq_product]
  exact List.mem_product.mpr ⟨ha, hb⟩

theorem combinations_nodup {α : Type} {l : List α} (h : l.Nodup) :
    (combinations l).Nodup := by
  rw [combinations_eq_product]
  exact h.product h

theorem dictInsert_of_fresh {κ ν : Type} [BEq κ] [LawfulBEq κ]
    (d : List (κ × ν)) (k : κ) (v : ν) (h : ∀ p ∈ d, p.1 ≠ k) :
    dictInsert d k v = d ++ [(k, v)] := by
  have hany : (d.any fun p => p.1 == k) = false :=
    List.any_eq_false.mpr fun p hp => by simp [h p hp]
  rw [dictInsert, hany]
  rfl

theorem foldl_dictInsert_keyed {α κ ν : Type} [BEq κ] [LawfulBEq κ]
    (key : α → κ) (val : α → ν) :
    ∀ (xs : List α) (d : List (κ × ν)), (xs.map key).Nodup →
      (∀ x ∈ xs, ∀ p ∈ d, p.1 ≠ key x) →
      xs.foldl (fun d x => dictInsert d (key x) (val x)) d
        = d ++ xs.map fun x => (key x, val x) := by
  intro xs
  induction xs with
  | nil => intro d _ _; simp
  | cons x xs ih =>
    intro d hnd hfresh
    rw [List.foldl_cons,
      dictInsert_of_fresh d (key x) (val x)
        (fun p hp => hfresh x (List.mem_cons_self x xs) p hp),
      ih (d ++ [(key x, val x)]) (List.nodup_cons.mp (by simpa using hnd)).2]
    · simp
    · intro y hy p hp
      rcases List.mem_append.mp hp with hd | hx
      · exact hfresh y (List.mem_cons_of_mem x hy) p hd
      · rw [List.mem_singleton.mp hx]
        intro hcontra
        have hcontra' : key x = key y := hcontra
        have hkey : key y ∈ xs.map key := List.mem_map_of_mem key hy
        rw [List.map_cons, List.nodup_cons] at hnd
        exact hnd.1 (by rw [hcontra']; exact hkey)

theorem dictLookup_of_nodup_mem {κ ν : Type} [BEq κ] [LawfulBEq κ] :
    ∀ (d : List (κ × ν)) (k : κ) (v : ν), (d.map Prod.fst).Nodup →
      (k, v) ∈ d → dictLookup d k = some v := by
  intro d
  induction d with
  | nil => intro k v _ hm; exact absurd hm (List.not_mem_nil _)
  | cons x d ih =>
    intro k v hnd hm
    rcases List.mem_cons.mp hm with rfl | hm'
    · simp [dictLookup]
    · have hk : ¬((fun p : κ × ν => p.1 == k) x = true) := by
        simp only [beq_iff_eq]
        intro he
        have hkey : k ∈ d.map Prod.fst := by
          simpa using List.mem_map_of_mem Prod.fst hm'
        rw [List.map_cons, List.nodup_cons] at hnd
        exact hnd.1 (he ▸ hkey)
      rw [dictLookup, List.find?_cons_of_neg d hk]
      rw [List.map_cons, List.nodup_cons] at hnd
      exact ih k v hnd.2 hm'

theorem run_tournament_eq_table (strategies : List (StrategyId × Strategy))
    (update_scores : ScoreFunc) (num_turns : Nat)
    (hid : (strategies.map Prod.fst).Nodup) :
    run_tournament strategies update_scores num_turns
      = (combinations strategies).map fun p =>
          ((p.1.1, p.2.1), simulate_game p.1.2 p.2.2 update_scores num_turns) := by
  have hkeys : ((combinations strategies).map fun p => to_key p.1 p.2).Nodup := by
    have h := combinations_map (Prod.fst (β := Strategy)) strategies
    have : ((combinations strategies).map fun p => to_key p.1 p.2)
        = combinations (strategies.map Prod.fst) := by
      rw [h]; rfl
    rw [this]
    exact combinations_nodup hid
  have h := foldl_dictInsert_keyed (fun p => to_key p.1 p.2)
    (fun p => simulate_game p.1.2 p.2.2 update_scores num_turns)
    (combinations strategies) [] hkeys (by intro x _ p hp; exact absurd hp (List.not_mem_nil _))
  rw [run_tournament, h, List.nil_append]
  rfl

theorem run_tournament_keys (strategies : List (StrategyId × Strategy))
    (update_scores : ScoreFunc) (num_turns : Nat)
    (hid : (strategies.map Prod.fst).Nodup) :
    (run_tournament strategies update_scores num_turns).map Prod.fst
      = combinations (strategies.map Prod.fst) := by
  rw [run_tournament_eq_table strategies update_scores num_turns hid,
    List.map_map, combinations_map]
  rfl

/-- **C5.** For every list of strategies with pairwise-distinct identities,
the tournament runner produces a results table with exactly `N²` entries whose
keys are exactly the ordered pairs of identities (self-pairs included), the
entry under `(idA, idB)` being the game loop's result with `A` as player 1 and
`B` as player 2. -/
theorem tournament_table_complete (strategies : List (StrategyId × Strategy))
    (update_scores : ScoreFunc) (num_turns : Nat)
    (hid : (strategies.map Prod.fst).Nodup) :
    run_tournament strategies update_scores num_turns
      = ((combinations strategies).map fun p =>
          ((p.1.1, p.2.1), simulate_game p.1.2 p.2.2 update_scores num_turns))
    ∧ (run_tournament strategies update_scores num_turns).length
        = strategies.length * strategies.length
    ∧ (run_tournament strategies update_scores num_turns).map Prod.fst
        = combinations (strategies.map Prod.fst)
    ∧ ∀ a b, a ∈ strategies → b ∈ strategies →
        dictLookup (run_tournament strategies update_scores num_turns) (a.1, b.1)
          = some (simulate_game a.2 b.2 update_scores num_turns) := by
  have hT := run_tournament_eq_table strategies update_scores num_turns hid
  refine ⟨hT, ?_, run_tournament_keys strategies update_scores num_turns hid, ?_⟩
  · rw [hT, List.length_map, combinations_length]
  · intro a b ha hb
    refine dictLookup_of_nodup_mem _ _ _ ?_ ?_
    · rw [run_tournament_keys strategies update_scores num_turns hid]
      exact combinations_nodup hid
    · rw [hT]
      exact List.mem_map_of_mem _ (mem_combinations ha hb)

/-- The classic score matrix's lookup made total (the default branch is never
reached on `"C"`/`"D"` moves), used as a concrete `ScoreFunc` input. -/
def classic_update_total : ScoreFunc := fun move1 move2 =>
  (matrixLookup classic_score_matrix move1 move2).getD (0, 0)

/-- A concrete two-strategy tournament input with distinct identities. -/
def demo_strategies : List (StrategyId × Strategy) :=
  [("optimist", optimist), ("criminal", criminal)]

/-- Witness for `tournament_table_complete`: in the two-strategy tournament the
entry under `("criminal", "optimist")` is the `criminal`-vs-`optimist` game,
the distinct-identities hypothesis discharged concretely. -/
theorem tournament_table_complete_witness :
    dictLookup (run_tournament demo_strategies classic_update_total 1)
        ("criminal", "optimist")
      = some (simulate_game criminal optimist classic_update_total 1) :=
  (tournament_table_complete demo_strategies classic_update_total 1
      (by decide)).2.2.2
    ("criminal", criminal) ("optimist", optimist)
    (List.mem_cons_of_mem _ (List.mem_cons_self _ _))
    (List.mem_cons_self _ _)

/-- **C9 (amended).** Given two strategies with the same identity, the
tournament runner raises no error at all: all four ordered-pair games share
the dict key `(i, i)`, so the comprehension silently overwrites that entry
three times and the table collapses to the single entry holding the result of
the last pair computed — the second strategy against itself. -/
theorem duplicate_identity_overwrites (i : StrategyId) (strategy1 strategy2 : Strategy)
    (update_scores : ScoreFunc) (num_turns : Nat) :
    run_tournament [(i, strategy1), (i, strategy2)] update_scores num_turns
      = [((i, i), simulate_game strategy2 strategy2 update_scores num_turns)] := by
  simp [run_tournament, combinations, to_key, dictInsert]

/-- The **C9 counterexample**: the tournament runner, handed the duplicate
identity `"s"` for both `optimist` and `criminal`, does not fail before any
game is run — it returns a normal results table, and that table's sole entry
`(1, 1)` is the last game's result, having silently overwritten the earlier
`optimist`-self result `(3, 3)`. -/
theorem no_identity_collision_counterexample :
    run_tournament [("s", optimist), ("s", criminal)] classic_update_total 1
      = [(("s", "s"), (1, 1))]
    ∧ simulate_game optimist optimist classic_update_total 1 = (3, 3)
    ∧ ¬((1, 1) : Int × Int) = (3, 3) := by
  refine ⟨rfl, rfl, by decide⟩
